import Mathlib

/-!
# Verification of the dash0 Go API client core

Shallow embedding of the request-execution pipeline of the dash0 API client:
the cursor-pagination iterator (`iterator.go`), the retry transport with
exponential backoff (`transport.go`), the concurrency limiter
(`transport.go`), the idempotency context marker (`context.go`) and the
error classifier (`errors.go`).  Go machine integers (`time.Duration`,
`int64`) are modelled as `Int` with explicit two's-complement wrapping where
the source can overflow; Go `error` values are modelled as `String`;
fallible operations return `Option`/`Except`.
-/

namespace Dash0

/-! ## Pagination iterator (`iterator.go`)

`Iter[T]` holds a current item pointer `cur` (`*T`, modelled as `Option T`),
a sticky error, the current page `items` (`[]*T`, modelled as `List T`), the
index `idx` (`int`, starts at `-1`), the `hasMore` flag, an optional fetch
function and an optional cursor.  `fetch(cursor)` returns
`(items, nextCursor, error)`, modelled as `Except String (List T × Option String)`.
-/

structure Iter (T : Type) where
  cur : Option T := none
  err : Option String := none
  items : List T := []
  idx : Int := 0
  hasMore : Bool := false
  fetch : Option (Option String → Except String (List T × Option String)) := none
  cursor : Option String := none

/-- Embedding of `Iter.Next` (iterator.go lines 30-62).  The Go method
mutates the receiver and returns a `bool`; here it returns the bool together
with the updated state. -/
def Iter.next {T : Type} (it : Iter T) : Bool × Iter T :=
  if it.err.isSome then (false, it)
  else if it.idx + 1 < (it.items.length : Int) then
    (true, { it with idx := it.idx + 1, cur := it.items.get? (it.idx + 1).toNat })
  else if !it.hasMore || it.fetch.isNone then
    (false, { it with idx := it.idx + 1 })
  else
    match it.fetch with
    | none => (false, { it with idx := it.idx + 1 })
    | some f =>
      match f it.cursor with
      | Except.error e => (false, { it with idx := it.idx + 1, err := some e })
      | Except.ok (newItems, nextCursor) =>
        if 0 < newItems.length then
          (true,
            { it with
              idx := 0
              items := newItems
              cursor := nextCursor
              hasMore := nextCursor.isSome
              cur := newItems.get? 0 })
        else
          (false,
            { it with
              idx := 0
              items := newItems
              cursor := nextCursor
              hasMore := nextCursor.isSome })

/-- Embedding of `Iter.Current` (iterator.go lines 66-68): returns the `cur`
field unchanged. -/
def Iter.current {T : Type} (it : Iter T) : Option T :=
  it.cur

/-- Embedding of `Iter.Err` (iterator.go lines 72-74). -/
def Iter.errOf {T : Type} (it : Iter T) : Option String :=
  it.err

/-- Embedding of `newIter` (iterator.go lines 77-85): `idx` starts at `-1`,
`cur` and `err` are the Go zero values (nil). -/
def newIter {T : Type} (items : List T) (hasMore : Bool) (cursor : Option String)
    (fetch : Option (Option String → Except String (List T × Option String))) : Iter T :=
  { cur := none, err := none, items := items, idx := -1, hasMore := hasMore,
    fetch := fetch, cursor := cursor }

/-- Embedding of `newIterWithError` (iterator.go lines 88-93). -/
def newIterWithError {T : Type} (e : String) : Iter T :=
  { cur := none, err := some e, items := [], idx := -1, hasMore := false,
    fetch := none, cursor := none }

/-- Iterator states reachable from the two constructors by any sequence of
`Next` calls. -/
inductive IterReachable {T : Type} : Iter T → Prop
  | base (items : List T) (hasMore : Bool) (cursor : Option String)
      (fetch : Option (Option String → Except String (List T × Option String))) :
      IterReachable (newIter items hasMore cursor fetch)
  | withError (e : String) : IterReachable (newIterWithError e)
  | step {it : Iter T} : IterReachable it → IterReachable it.next.2

/-- Terminal states of the spec's iterator state machine: `Errored`
(`err` set) or `Exhausted` (position past the current page with no way to
fetch more: `hasMore` false or no fetch function). -/
def IterTerminal {T : Type} (it : Iter T) : Prop :=
  it.err.isSome = true ∨
    ((it.items.length : Int) ≤ it.idx ∧ (it.hasMore = false ∨ it.fetch.isNone = true))

/-! ## HTTP model shared by the transport and error layers

`http.Header.Get` canonicalizes the key and is case-insensitive; headers are
modelled as an association list and `headerGet` does a case-insensitive
lookup of the first matching entry, returning `""` when absent, exactly as
`Header.Get` does. -/

/-- ASCII lower-casing of one character, as Go's header canonicalization is
ASCII-only. -/
def asciiLower (c : Char) : Char :=
  if 'A' ≤ c ∧ c ≤ 'Z' then Char.ofNat (c.toNat + 32) else c

/-- ASCII-case-insensitive string equality. -/
def eqFoldAscii (a b : String) : Bool :=
  a.data.map asciiLower == b.data.map asciiLower

def headerGet (hs : List (String × String)) (key : String) : String :=
  match hs.find? (fun p => eqFoldAscii p.1 key) with
  | some p => p.2
  | none => ""

/-- An HTTP response as seen by the retry transport and the error
classifier: status code, status text and headers.  The body is passed
separately where it matters. -/
structure Response where
  statusCode : Int
  status : String := ""
  headers : List (String × String) := []
deriving DecidableEq

/-- The per-call context (`context.go`): the value stored under the
`dash0_idempotent` key (`none` when the key is absent or holds a non-bool),
plus whether the context's `Done` channel has fired (used by the retry
loop's `select`). -/
structure GoContext where
  idempotentMarker : Option Bool := none
  cancelled : Bool := false
deriving DecidableEq

/-- Embedding of `isIdempotent` (context.go lines 25-28):
`v, ok := ctx.Value(idempotentKey).(bool); return ok && v`. -/
def isIdempotentCtx (c : GoContext) : Bool :=
  c.idempotentMarker == some true

deriving instance DecidableEq for Except

/-- An outgoing `http.Request` as seen by the retry transport: method,
context, current body (`nil` ↔ `none`) and the `GetBody` replay function.
`GetBody` returns a fresh copy of the body or an error; it is deterministic,
so it is modelled as an optional pre-computed `Except`. -/
structure Request where
  method : String
  ctx : GoContext := {}
  body : Option String := none
  getBody : Option (Except String String) := none
deriving DecidableEq

/-! ## Go integer and library primitives used by the retry transport -/

/-- Two's-complement wrap of an unbounded integer into `int64`
(`time.Duration` is an `int64` of nanoseconds). -/
def i64 (x : Int) : Int :=
  (x + 2 ^ 63) % 2 ^ 64 - 2 ^ 63

/-- Embedding of `strconv.Atoi` on a 64-bit platform: an optional sign
followed by at least one decimal digit, value within `int64` range;
everything else (including the empty string) is an error, modelled as
`none`. -/
def goAtoi (s : String) : Option Int :=
  let signed : Int × List Char :=
    match s.data with
    | '+' :: rest => (1, rest)
    | '-' :: rest => (-1, rest)
    | l => (1, l)
  if signed.2.isEmpty then none
  else if signed.2.all Char.isDigit then
    let n : Nat := signed.2.foldl (fun a c => a * 10 + (c.toNat - 48)) 0
    let v : Int := signed.1 * n
    if -(2 ^ 63) ≤ v ∧ v < 2 ^ 63 then some v else none
  else none

/-- Embedding of `math/rand.Int63n n`: panics (modelled as `none`) when
`n ≤ 0`, otherwise returns a value uniformly distributed in `[0, n)`.  The
random source is modelled by an oracle `r : Nat`; `r % n` ranges over all of
`[0, n)` as `r` does. -/
def int63n (r : Nat) (n : Int) : Option Int :=
  if n ≤ 0 then none else some ((r : Int) % n)

/-! ## Retry transport (`transport.go` lines 43-184) -/

/-- The `retryTransport` configuration.  `maxRetries` is an `int` that the
constructor clamps into `0..5`, so it is stored as a `Nat`; the wait bounds
are `time.Duration` (`int64` nanoseconds). -/
structure RetryTransport where
  maxRetries : Nat
  waitMin : Int
  waitMax : Int

/-- Embedding of `newRetryTransport` (transport.go lines 53-75), dropping
the opaque `base` round-tripper (passed separately to `roundTrip`). -/
def newRetryTransport (maxRetries : Int) (waitMin waitMax : Int) : RetryTransport :=
  let mr := if maxRetries < 0 then 0 else maxRetries
  let mr := if 5 < mr then 5 else mr
  let wmin := if waitMin ≤ 0 then 500000000 else waitMin
  let wmax := if waitMax ≤ 0 then 30000000000 else waitMax
  { maxRetries := mr.toNat, waitMin := wmin, waitMax := wmax }

/-- Embedding of `retryTransport.isIdempotent` (transport.go lines 137-145):
safe methods are always idempotent, any other method defers to the context
marker. -/
def RetryTransport.isIdempotent (req : Request) : Bool :=
  if req.method = "GET" || req.method = "PUT" || req.method = "DELETE" ||
      req.method = "HEAD" || req.method = "OPTIONS" then true
  else isIdempotentCtx req.ctx

/-- Embedding of `retryTransport.shouldRetry` (transport.go lines 148-154)
restricted to a non-nil response; the nil-response case is the `error`
branch of `RTResult`. -/
def shouldRetryResp (resp : Response) : Bool :=
  resp.statusCode == 429 || 500 ≤ resp.statusCode

/-- Result of one `base.RoundTrip` call: `(resp, err)` with exactly one of
the two set, as the retry loop assumes. -/
abbrev RTResult := Except String Response

/-- Whether an attempt outcome terminates the loop successfully:
`err == nil && !t.shouldRetry(resp)`. -/
def attemptDone (res : RTResult) : Bool :=
  match res with
  | Except.ok resp => !shouldRetryResp resp
  | Except.error _ => false

/-- The exponential tail of `retryTransport.backoff` (transport.go lines
171-183): `wait := waitMin * Duration(1 << attempt)` capped at `waitMax`,
with int64 wrapping made explicit. -/
def cappedExpWait (t : RetryTransport) (attempt : Nat) : Int :=
  let w := i64 (t.waitMin * i64 ((2 : Int) ^ attempt))
  if t.waitMax < w then t.waitMax else w

/-- Jitter step of `backoff`: `if wait > 0 { wait += rand.Int63n(wait/4) }`.
Returns `none` when `rand.Int63n` panics (its argument `wait/4` is not
positive).  The `+=` is `int64` addition on `time.Duration` and wraps on
overflow, made explicit with `i64`. -/
def backoffExp (t : RetryTransport) (attempt : Nat) (r : Nat) : Option Int :=
  let w := cappedExpWait t attempt
  if 0 < w then
    match int63n r (w / 4) with
    | some j => some (i64 (w + j))
    | none => none
  else some w

/-- Embedding of `retryTransport.backoff` (transport.go lines 157-184).
`resp` is the (possibly nil) response of the failed attempt, `r` the random
oracle for the jitter draw.  `none` models a panic. -/
def RetryTransport.backoff (t : RetryTransport) (attempt : Nat) (resp : Option Response)
    (r : Nat) : Option Int :=
  match resp with
  | some rsp =>
    if headerGet rsp.headers "Retry-After" = "" then backoffExp t attempt r
    else
      match goAtoi (headerGet rsp.headers "Retry-After") with
      | some secs =>
        if 0 < secs then
          some (if t.waitMax < i64 (secs * 1000000000) then t.waitMax
            else i64 (secs * 1000000000))
        else backoffExp t attempt r
      | none => backoffExp t attempt r
  | none => backoffExp t attempt r

/-- The response argument `backoff` receives from the loop: the response
when the attempt produced one, nil (`none`) when the transport errored. -/
def respOf (res : RTResult) : Option Response :=
  match res with
  | Except.ok resp => some resp
  | Except.error _ => none

/-- The body-reset step at the top of each loop iteration (transport.go
lines 94-100): on a retry (`attempt > 0`), if the request has a body and a
`GetBody` replay function, replace the body with a fresh copy, failing with
`GetBody`'s error if it cannot produce one; in every other case the request
is forwarded unchanged. -/
def resetBody (attempt : Nat) (req : Request) : Except String Request :=
  if 0 < attempt ∧ req.body.isSome ∧ req.getBody.isSome then
    match req.getBody with
    | some (Except.error e) => Except.error e
    | some (Except.ok b) => Except.ok { req with body := some b }
    | none => Except.ok req
  else Except.ok req

/-- The attempt loop of `retryTransport.RoundTrip` (transport.go lines
92-129).  `attempt` is the current zero-based attempt number and
`rem = maxRetries - attempt` the number of retries still allowed (`rem = 0`
on the final attempt).  `base i` is the outcome of the `(i+1)`-th call to
the wrapped round-tripper, `rng i` the random oracle for the backoff after
attempt `i`.  Returns the final `(resp, err)` (`none` models a panic inside
`backoff`) together with the list of requests forwarded to `base`, in
order. -/
def retryLoop (t : RetryTransport) (base : Nat → RTResult) (rng : Nat → Nat) :
    Nat → Nat → Request → Option RTResult × List Request
  | attempt, rem, req =>
    match resetBody attempt req with
    | Except.error e => (some (Except.error e), [])
    | Except.ok req' =>
      if attemptDone (base attempt) then (some (base attempt), [req'])
      else
        match rem with
        | 0 => (some (base attempt), [req'])
        | rem' + 1 =>
          match t.backoff attempt (respOf (base attempt)) (rng attempt) with
          | none => (none, [req'])
          | some _ =>
            if req'.ctx.cancelled then (some (Except.error "context canceled"), [req'])
            else
              ((retryLoop t base rng (attempt + 1) rem' req').1,
                req' :: (retryLoop t base rng (attempt + 1) rem' req').2)

/-- Embedding of `retryTransport.RoundTrip` (transport.go lines 78-132):
bypass when retries are disabled or the request is not idempotent, else run
the attempt loop starting at attempt 0 with `maxRetries` retries left. -/
def RetryTransport.roundTrip (t : RetryTransport) (base : Nat → RTResult)
    (rng : Nat → Nat) (req : Request) : Option RTResult × List Request :=
  if t.maxRetries = 0 then (some (base 0), [req])
  else if !RetryTransport.isIdempotent req then (some (base 0), [req])
  else retryLoop t base rng 0 t.maxRetries req

/-! ## Concurrency limiter (`transport.go` lines 13-41)

`rateLimitedTransport.RoundTrip` does `semaphore.Acquire(ctx, 1)` (blocking;
on context cancellation it returns an error and, per the
`golang.org/x/sync/semaphore` contract, leaves the semaphore unchanged),
forwards the call, and releases the permit in a `defer` (so the release
happens unconditionally when the forwarded call returns).  This is modelled
as a labelled transition system over the phases of any number of caller
tasks together with the semaphore's acquired count: `acquire` fires only
when a permit is free, `cancelWait` aborts a waiting task without touching
the count, `finish` is the return of the forwarded call together with the
deferred release. -/

inductive CallPhase where
  | waiting
  | inflight
  | done
  | cancelled
deriving DecidableEq, BEq

/-- Whether a task phase is `inflight`. -/
def isInflight (p : CallPhase) : Bool :=
  p == CallPhase.inflight

/-- Number of tasks currently executing at the underlying transport. -/
def inflightCount (ph : List CallPhase) : Nat :=
  ph.countP isInflight

/-- One step of the limiter system with capacity `n`.  State: semaphore
count × task phases. -/
inductive LimStep (n : Nat) : Nat × List CallPhase → Nat × List CallPhase → Prop
  | acquire (cur : Nat) (ph : List CallPhase) (i : Nat)
      (hi : ph.get? i = some CallPhase.waiting) (hn : cur + 1 ≤ n) :
      LimStep n (cur, ph) (cur + 1, ph.set i CallPhase.inflight)
  | cancelWait (cur : Nat) (ph : List CallPhase) (i : Nat)
      (hi : ph.get? i = some CallPhase.waiting) :
      LimStep n (cur, ph) (cur, ph.set i CallPhase.cancelled)
  | finish (cur : Nat) (ph : List CallPhase) (i : Nat)
      (hi : ph.get? i = some CallPhase.inflight) :
      LimStep n (cur, ph) (cur - 1, ph.set i CallPhase.done)

/-- States reachable from a burst of `k` callers, all initially waiting for
a permit, with the semaphore fresh (`semaphore.NewWeighted(n)`, nothing
acquired). -/
inductive LimReach (n : Nat) : Nat × List CallPhase → Prop
  | init (k : Nat) : LimReach n (0, List.replicate k CallPhase.waiting)
  | step {s s' : Nat × List CallPhase} : LimReach n s → LimStep n s s' → LimReach n s'

/-! ## Error classifier (`errors.go`)

The body bytes are carried as the raw string together with their JSON parse
(`none` when the bytes are not valid JSON).  `encoding/json.Unmarshal` into
`struct { Message string; Error string }` is modelled by `decodeErrResp`:
it succeeds only on a JSON object (or `null`), matches keys
case-insensitively, lets later duplicate keys overwrite earlier ones,
ignores `null` field values, and fails on a `message`/`error` field whose
value is not a string — in every failure case the caller (which tests
`Unmarshal(...) == nil`) leaves `Message` empty. -/

inductive GoJson where
  | jnull
  | jbool (b : Bool)
  | jnum (n : Int)
  | jstr (s : String)
  | jarr (xs : List GoJson)
  | jobj (fields : List (String × GoJson))

/-- `json.Unmarshal(body, &struct{ Message, Error string })`, returning the
decoded `(Message, Error)` pair, or `none` when `Unmarshal` returns a
non-nil error. -/
def decodeErrResp (v : GoJson) : Option (String × String) :=
  match v with
  | GoJson.jnull => some ("", "")
  | GoJson.jobj fields =>
    fields.foldl
      (fun acc kv =>
        match acc with
        | none => none
        | some (m, e) =>
          if eqFoldAscii kv.1 "message" then
            match kv.2 with
            | GoJson.jstr s => some (s, e)
            | GoJson.jnull => some (m, e)
            | _ => none
          else if eqFoldAscii kv.1 "error" then
            match kv.2 with
            | GoJson.jstr s => some (m, s)
            | GoJson.jnull => some (m, e)
            | _ => none
          else some (m, e))
      (some ("", ""))
  | _ => none

/-- The structured API error (errors.go lines 11-26). -/
structure APIError where
  statusCode : Int
  status : String
  body : String
  message : String
  traceID : String
deriving DecidableEq

/-- Embedding of `newAPIErrorWithBody` (errors.go lines 56-80).  `raw` is
the pre-read body as a string, `parsed` its JSON parse (`none` when the
bytes are not JSON).  The function is total: no body can make construction
fail. -/
def newAPIErrorWithBody (resp : Response) (raw : String) (parsed : Option GoJson) : APIError :=
  let base : APIError :=
    { statusCode := resp.statusCode
      status := resp.status
      body := raw
      message := ""
      traceID := headerGet resp.headers "x-trace-id" }
  if 0 < raw.length then
    match parsed with
    | some v =>
      match decodeErrResp v with
      | some (m, e) =>
        if m ≠ "" then { base with message := m }
        else if e ≠ "" then { base with message := e }
        else base
      | none => base
    | none => base
  else base

/-! ## Derived predicates and concrete scenarios used by the theorems -/

/-- The invariant the iterator actually maintains in non-terminal states:
the index never drops below `-1`, and before a terminal state it is either
inside the current page or equal to `0` on an empty page (the state produced
by a fetch that returned an empty page together with a new cursor). -/
def IterInv {T : Type} (it : Iter T) : Prop :=
  -1 ≤ it.idx ∧
    (¬ IterTerminal it →
      it.idx < (it.items.length : Int) ∨ (it.idx = 0 ∧ it.items = []))

/-- Whether `backoff` takes the `Retry-After` branch: a response is present,
its `Retry-After` header is non-empty, and `strconv.Atoi` parses it to a
positive value. -/
def retryAfterUsable (resp : Option Response) : Bool :=
  match resp with
  | none => false
  | some rsp =>
    if headerGet rsp.headers "Retry-After" = "" then false
    else
      match goAtoi (headerGet rsp.headers "Retry-After") with
      | some secs => 0 < secs
      | none => false

/-- A retry transport built with the spec's default wait bounds
(`retryWaitMin = 500ms`, `retryWaitMax = 30s`) and 3 retries. -/
def t500 : RetryTransport := newRetryTransport 3 500000000 30000000000

/-- Same wait bounds with `maxRetries = 1`. -/
def tOneRetry : RetryTransport := newRetryTransport 1 500000000 30000000000

/-- A 429 response carrying `Retry-After: 0`. -/
def resp429RA0 : Response := { statusCode := 429, headers := [("Retry-After", "0")] }

/-- A plain 500 response. -/
def resp500 : Response := { statusCode := 500, status := "500 Internal Server Error" }

/-- A base transport whose every call returns the 500 response. -/
def base500 : Nat → RTResult := fun _ => Except.ok resp500

/-- A GET request whose body has already been consumed and which carries no
`GetBody` replay function. -/
def reqStale : Request := { method := "GET", body := some "consumed", getBody := none }

/-- A GET request with a body whose `GetBody` replay function fails with a
given error. -/
def reqErrBody (e b0 : String) : Request :=
  { method := "GET", body := some b0, getBody := some (Except.error e) }

/-- A fetch function that returns an empty page together with a new
cursor. -/
def c4Fetch : Option String → Except String (List Nat × Option String) :=
  fun _ => Except.ok ([], some "c")

/-- The iterator state right after `Next` fetched an empty page with a new
cursor: `idx = 0`, empty current page, `hasMore` still true. -/
def c4Iter : Iter Nat := ((newIter ([] : List Nat) true (some "c0") (some c4Fetch)).next).2

/-- A one-page iterator over the single item `7`. -/
def c1Start : Iter Nat := newIter [7] false none none

/-- A JSON object body whose `message` field is the number `5` (not a
string) and whose `error` field is the non-empty string `"x"`. -/
def c8Body : GoJson := GoJson.jobj [("message", GoJson.jnum 5), ("error", GoJson.jstr "x")]

/-- The raw bytes of `c8Body`. -/
def c8Raw : String := "\x7b\"message\":5,\"error\":\"x\"\x7d"

/-! ## Iterator lemmas -/

theorem iterInv_newIter {T : Type} (items : List T) (hasMore : Bool) (cursor : Option String)
    (fetch : Option (Option String → Except String (List T × Option String))) :
    IterInv (newIter items hasMore cursor fetch) := by
  constructor
  · simp [newIter]
  · intro _
    left
    simp only [newIter]
    omega

theorem iterInv_newIterWithError {T : Type} (e : String) :
    IterInv (newIterWithError e : Iter T) := by
  constructor
  · simp [newIterWithError]
  · intro h
    exact absurd (Or.inl (by simp [newIterWithError])) h

theorem iterInv_step {T : Type} {it : Iter T} (h : IterInv it) : IterInv it.next.2 := by
  obtain ⟨h1, h2⟩ := h
  unfold Iter.next
  split
  · exact ⟨h1, h2⟩
  · split
    · rename_i hin
      exact ⟨show -1 ≤ it.idx + 1 by omega, fun _ => Or.inl (by simpa using hin)⟩
    · rename_i hin
      split
      · rename_i hstop
        refine ⟨show -1 ≤ it.idx + 1 by omega, fun hnt => absurd ?_ hnt⟩
        simp only [IterTerminal]
        refine Or.inr ⟨show (it.items.length : Int) ≤ it.idx + 1 by omega, ?_⟩
        rcases Bool.or_eq_true_iff.mp hstop with hs | hs
        · exact Or.inl (by simpa using hs)
        · exact Or.inr hs
      · split
        · rename_i hf
          refine ⟨show -1 ≤ it.idx + 1 by omega, fun hnt => absurd ?_ hnt⟩
          simp only [IterTerminal]
          exact Or.inr ⟨show (it.items.length : Int) ≤ it.idx + 1 by omega, Or.inr (by simp [hf])⟩
        · rename_i f hf
          split
          · rename_i e he
            refine ⟨show -1 ≤ it.idx + 1 by omega, fun hnt => absurd ?_ hnt⟩
            simp only [IterTerminal]
            exact Or.inl (by simp)
          · rename_i newItems nextCursor hok
            split
            · rename_i hne
              exact ⟨show -1 ≤ (0 : Int) by omega,
                fun _ => Or.inl (show (0 : Int) < (newItems.length : Int) by exact_mod_cast hne)⟩
            · rename_i hne
              exact ⟨show -1 ≤ (0 : Int) by omega,
                fun _ => Or.inr ⟨rfl, by simpa using hne⟩⟩

theorem iterInv_reachable {T : Type} {it : Iter T} (h : IterReachable it) : IterInv it := by
  induction h with
  | base items hasMore cursor fetch => exact iterInv_newIter items hasMore cursor fetch
  | withError e => exact iterInv_newIterWithError e
  | step _ ih => exact iterInv_step ih

/-- C1: after `Next` has returned `true` once (yielding the only item) and
then `false` (the iterator is exhausted), `Current` still returns the last
item: the code never clears `cur`, contradicting both the claim and the
method's own doc comment ("Returns nil if Next() has not been called or
returned false").  This theorem evaluates the embedded code at the failing
input. -/
theorem c1_current_after_false :
    (c1Start.next.1 = true ∧ c1Start.next.2.next.1 = false) ∧
      c1Start.next.2.next.2.current = some 7 := by
  refine ⟨⟨rfl, rfl⟩, rfl⟩

/-- C4 counterexample: starting from an empty initial page with
`hasMore = true` and a fetch function returning an empty page together with
a new cursor, one `Next` call reaches a state that is reachable and
non-terminal (`hasMore` is still true and a fetch function is present), yet
the claimed invariant `-1 ≤ idx < len(currentPage)` fails there:
`idx = 0 = len(currentPage)`. -/
theorem c4_counterexample :
    IterReachable c4Iter ∧ ¬ IterTerminal c4Iter ∧
      ¬ (-1 ≤ c4Iter.idx ∧ c4Iter.idx < (c4Iter.items.length : Int)) := by
  refine ⟨IterReachable.step (IterReachable.base _ _ _ _), ?_, ?_⟩
  · intro h
    rcases h with h | ⟨_, h⟩
    · simp [c4Iter, c4Fetch, newIter, Iter.next] at h
    · rcases h with h | h <;> simp [c4Iter, c4Fetch, newIter, Iter.next] at h
  · intro ⟨_, h⟩
    simp [c4Iter, c4Fetch, newIter, Iter.next] at h

/-- C4 amended: for every reachable iterator state, `-1 ≤ idx` always holds,
and before a terminal state either `idx` lies strictly inside the current
page, or — precisely after a fetch returned an empty page together with a
new cursor — `idx = 0` with an empty current page (so `idx = len(currentPage)`
is possible there, contrary to the original claim). -/
theorem c4_amended {T : Type} (it : Iter T) (h : IterReachable it) :
    -1 ≤ it.idx ∧
      (¬ IterTerminal it →
        it.idx < (it.items.length : Int) ∨ (it.idx = 0 ∧ it.items = [])) :=
  iterInv_reachable h

/-- Witness for `c4_amended` at a concrete reachable iterator. -/
theorem c4_amended_witness :
    -1 ≤ (newIter [5] false none none : Iter Nat).idx ∧
      (¬ IterTerminal (newIter [5] false none none : Iter Nat) →
        (newIter [5] false none none : Iter Nat).idx <
            ((newIter [5] false none none : Iter Nat).items.length : Int) ∨
          ((newIter [5] false none none : Iter Nat).idx = 0 ∧
            (newIter [5] false none none : Iter Nat).items = [])) :=
  c4_amended _ (IterReachable.base [5] false none none)

/-! ## Backoff lemmas -/

theorem i64_eq_self {x : Int} (h1 : -(2 ^ 63) ≤ x) (h2 : x < 2 ^ 63) : i64 x = x := by
  unfold i64
  omega

theorem cappedExpWait_eq {t : RetryTransport} {a : Nat} (h1 : 0 < t.waitMin)
    (h2 : t.waitMin * 2 ^ a < 2 ^ 63) :
    cappedExpWait t a = min (t.waitMin * 2 ^ a) t.waitMax := by
  have hp : (0 : Int) < 2 ^ a := by positivity
  have hprod : 0 < t.waitMin * 2 ^ a := by positivity
  have hsh : ((2 : Int) ^ a) < 2 ^ 63 := by nlinarith
  unfold cappedExpWait
  rw [i64_eq_self (by omega) hsh, i64_eq_self (by omega) h2]
  rcases le_or_lt (t.waitMin * 2 ^ a) t.waitMax with hle | hlt
  · rw [if_neg (by omega), min_eq_left hle]
  · rw [if_pos hlt, min_eq_right (le_of_lt hlt)]

theorem backoff_of_unusable {t : RetryTransport} {resp : Option Response} (a r : Nat)
    (h : retryAfterUsable resp = false) :
    t.backoff a resp r = backoffExp t a r := by
  cases resp with
  | none => rfl
  | some rsp =>
    simp only [RetryTransport.backoff]
    simp only [retryAfterUsable] at h
    by_cases hra : headerGet rsp.headers "Retry-After" = ""
    · rw [if_pos hra]
    · rw [if_neg hra] at h ⊢
      cases hA : goAtoi (headerGet rsp.headers "Retry-After") with
      | none => rfl
      | some secs =>
        rw [hA] at h
        simp only [decide_eq_false_iff_not, not_lt] at h
        simp [show ¬ (0 : Int) < secs from not_lt.mpr h]

theorem backoff_of_usable {t : RetryTransport} {resp : Option Response} (a r : Nat)
    (h : retryAfterUsable resp = true) :
    ∃ w, t.backoff a resp r = some w := by
  cases resp with
  | none => simp [retryAfterUsable] at h
  | some rsp =>
    simp only [retryAfterUsable] at h
    simp only [RetryTransport.backoff]
    by_cases hra : headerGet rsp.headers "Retry-After" = ""
    · rw [if_pos hra] at h
      exact absurd h (by simp)
    · rw [if_neg hra] at h ⊢
      cases hA : goAtoi (headerGet rsp.headers "Retry-After") with
      | none =>
        rw [hA] at h
        exact absurd h (by simp)
      | some secs =>
        rw [hA] at h
        simp only [decide_eq_true_eq] at h
        exact ⟨if t.waitMax < i64 (secs * 1000000000) then t.waitMax
          else i64 (secs * 1000000000), by simp [h]⟩

theorem backoffExp_eq_none_iff (t : RetryTransport) (a r : Nat) :
    backoffExp t a r = none ↔ (0 < cappedExpWait t a ∧ cappedExpWait t a < 4) := by
  unfold backoffExp int63n
  by_cases hw : 0 < cappedExpWait t a
  · rw [if_pos hw]
    by_cases h4 : cappedExpWait t a / 4 ≤ 0
    · rw [if_pos h4]
      constructor
      · intro _
        exact ⟨hw, by omega⟩
      · intro _
        rfl
    · rw [if_neg h4]
      constructor
      · intro h
        exact absurd h (by simp)
      · intro ⟨_, hlt⟩
        exact absurd (show cappedExpWait t a / 4 ≤ 0 by omega) h4
  · rw [if_neg hw]
    constructor
    · intro h
      exact absurd h (by simp)
    · intro ⟨h, _⟩
      exact absurd h hw

theorem backoff_eq_none_iff (t : RetryTransport) (a r : Nat) (resp : Option Response) :
    t.backoff a resp r = none ↔
      (retryAfterUsable resp = false ∧ 0 < cappedExpWait t a ∧ cappedExpWait t a < 4) := by
  cases husable : retryAfterUsable resp with
  | false =>
    rw [backoff_of_unusable a r husable, backoffExp_eq_none_iff]
    simp
  | true =>
    obtain ⟨w, hw⟩ := backoff_of_usable a r husable
    rw [hw]
    simp

theorem backoff_isSome_of_wait {t : RetryTransport} {a : Nat} (r : Nat) (resp : Option Response)
    (h : 4 ≤ cappedExpWait t a) :
    t.backoff a resp r ≠ none := by
  intro hnone
  obtain ⟨_, _, hlt⟩ := (backoff_eq_none_iff t a r resp).mp hnone
  omega

/-- C2 counterexample: on a 429 response carrying `Retry-After: 0` and the
default configuration, the computed wait (jitter draw 0) is exactly
`retryWaitMin * 2^0 = 500ms` — the full exponential-backoff wait, identical
to the no-header case — not an immediate/near-immediate retry. -/
theorem c2_counterexample :
    RetryTransport.backoff t500 0 (some resp429RA0) 0 = some 500000000 ∧
      RetryTransport.backoff t500 0 none 0 = some 500000000 ∧
      t500.waitMin * 2 ^ 0 = 500000000 := by
  refine ⟨by decide, by decide, by decide⟩

/-- C2 amended: a `Retry-After: 0` header is ignored by `backoff` (only a
strictly positive integer value is honoured), so the wait before the next
retry is the full exponential backoff, exactly as if no `Retry-After` header
were present; an immediate/near-immediate retry happens only for waits that
are themselves small. -/
theorem c2_amended (t : RetryTransport) (a r : Nat) (resp : Response)
    (h : headerGet resp.headers "Retry-After" = "0") :
    t.backoff a (some resp) r = t.backoff a none r := by
  have hu : retryAfterUsable (some resp) = false := by
    simp only [retryAfterUsable, h]
    rw [if_neg (by decide), show goAtoi "0" = some 0 from by decide]
    simp
  rw [backoff_of_unusable a r hu]
  rfl

/-- Witness for `c2_amended` on the concrete 429 response with
`Retry-After: 0`. -/
theorem c2_amended_witness :
    RetryTransport.backoff t500 0 (some resp429RA0) 0 =
      RetryTransport.backoff t500 0 none 0 :=
  c2_amended t500 0 0 resp429RA0 (by decide)

/-- C10: the backoff computation panics (returns `none` in the model)
exactly when no usable `Retry-After` header is present and the capped
exponential wait lies strictly between 0 and 4 nanoseconds (then
`wait > 0` passes the guard but `wait/4 = 0` makes `rand.Int63n` panic);
moreover the constructor accepts a positive `retryWaitMin` of 1ns (only
non-positive values are replaced by the 500ms default), and such a client
does panic on the first backoff. -/
theorem c10_backoff_panic :
    (∀ (t : RetryTransport) (a r : Nat) (resp : Option Response),
      t.backoff a resp r = none ↔
        (retryAfterUsable resp = false ∧
          0 < cappedExpWait t a ∧ cappedExpWait t a < 4)) ∧
    (newRetryTransport 3 1 30000000000).waitMin = 1 ∧
    RetryTransport.backoff (newRetryTransport 3 1 30000000000) 0 none 0 = none := by
  refine ⟨fun t a r resp => backoff_eq_none_iff t a r resp, by decide, by decide⟩

/-- C7: with no usable `Retry-After` header, the wait after zero-based
attempt `a` is `min(retryWaitMin * 2^a, retryWaitMax)` plus a jitter term
`j` with `0 ≤ j < wait/4` (first conjunct), and every such `j` is realized
by some draw of the random source (second conjunct, the model's rendering
of "drawn uniformly from [0, wait/4)"); with a `Retry-After` header whose
`Atoi` value is a positive number of seconds, the wait is exactly that many
seconds capped at `retryWaitMax`, independent of the random draw (third
conjunct).  The bounds `retryWaitMin * 2^a < 2^63`, `secs * 10^9 < 2^63`
and `min(retryWaitMin * 2^a, retryWaitMax) < 2^62` keep the `int64`
arithmetic — including the wrapping `wait += jitter` addition — away from
overflow, and `4 ≤ wait` is the no-panic precondition established by
C10. -/
theorem c7_backoff_formula :
    (∀ (t : RetryTransport) (a r : Nat) (resp : Option Response),
      retryAfterUsable resp = false →
      0 < t.waitMin → t.waitMin * 2 ^ a < 2 ^ 63 →
      4 ≤ min (t.waitMin * 2 ^ a) t.waitMax →
      min (t.waitMin * 2 ^ a) t.waitMax < 2 ^ 62 →
      ∃ j : Int, 0 ≤ j ∧ j < min (t.waitMin * 2 ^ a) t.waitMax / 4 ∧
        t.backoff a resp r = some (min (t.waitMin * 2 ^ a) t.waitMax + j)) ∧
    (∀ (t : RetryTransport) (a : Nat) (resp : Option Response) (j : Int),
      retryAfterUsable resp = false →
      0 < t.waitMin → t.waitMin * 2 ^ a < 2 ^ 63 →
      4 ≤ min (t.waitMin * 2 ^ a) t.waitMax →
      min (t.waitMin * 2 ^ a) t.waitMax < 2 ^ 62 →
      0 ≤ j → j < min (t.waitMin * 2 ^ a) t.waitMax / 4 →
      ∃ r : Nat, t.backoff a resp r = some (min (t.waitMin * 2 ^ a) t.waitMax + j)) ∧
    (∀ (t : RetryTransport) (a r : Nat) (rsp : Response) (secs : Int),
      goAtoi (headerGet rsp.headers "Retry-After") = some secs → 0 < secs →
      secs * 1000000000 < 2 ^ 63 →
      t.backoff a (some rsp) r = some (min (secs * 1000000000) t.waitMax)) := by
  refine ⟨?_, ?_, ?_⟩
  · intro t a r resp hu h0 hov h4 h62
    have hc : cappedExpWait t a = min (t.waitMin * 2 ^ a) t.waitMax := cappedExpWait_eq h0 hov
    rw [backoff_of_unusable a r hu]
    unfold backoffExp int63n
    rw [hc]
    rw [if_pos (by omega), if_neg (by omega)]
    have hj0 : 0 ≤ (r : Int) % (min (t.waitMin * 2 ^ a) t.waitMax / 4) :=
      Int.emod_nonneg _ (by omega)
    have hjlt : (r : Int) % (min (t.waitMin * 2 ^ a) t.waitMax / 4) <
        min (t.waitMin * 2 ^ a) t.waitMax / 4 :=
      Int.emod_lt_of_pos _ (by omega)
    refine ⟨(r : Int) % (min (t.waitMin * 2 ^ a) t.waitMax / 4), hj0, hjlt, ?_⟩
    show some (i64 (min (t.waitMin * 2 ^ a) t.waitMax +
        (r : Int) % (min (t.waitMin * 2 ^ a) t.waitMax / 4))) =
      some (min (t.waitMin * 2 ^ a) t.waitMax +
        (r : Int) % (min (t.waitMin * 2 ^ a) t.waitMax / 4))
    rw [i64_eq_self (by omega) (by omega)]
  · intro t a resp j hu h0 hov h4 h62 hj0 hjlt
    have hc : cappedExpWait t a = min (t.waitMin * 2 ^ a) t.waitMax := cappedExpWait_eq h0 hov
    refine ⟨j.toNat, ?_⟩
    rw [backoff_of_unusable a _ hu]
    unfold backoffExp int63n
    rw [hc]
    rw [if_pos (by omega), if_neg (by omega)]
    rw [Int.toNat_of_nonneg hj0, Int.emod_eq_of_lt hj0 hjlt]
    show some (i64 (min (t.waitMin * 2 ^ a) t.waitMax + j)) =
      some (min (t.waitMin * 2 ^ a) t.waitMax + j)
    rw [i64_eq_self (by omega) (by omega)]
  · intro t a r rsp secs hA hpos hov
    have hra : headerGet rsp.headers "Retry-After" ≠ "" := by
      intro he
      rw [he, show goAtoi "" = (none : Option Int) from by decide] at hA
      cases hA
    simp only [RetryTransport.backoff]
    rw [if_neg hra, hA]
    show (if 0 < secs then
        some (if t.waitMax < i64 (secs * 1000000000) then t.waitMax
          else i64 (secs * 1000000000))
      else backoffExp t a r) = some (min (secs * 1000000000) t.waitMax)
    rw [if_pos hpos, i64_eq_self (by omega) hov]
    rcases le_or_lt (secs * 1000000000) t.waitMax with hle | hlt
    · rw [if_neg (by omega), min_eq_left hle]
    · rw [if_pos hlt, min_eq_right (le_of_lt hlt)]

/-- Witness for `c7_backoff_formula` on the default configuration at
attempt 0, draw 5, no response. -/
theorem c7_backoff_formula_witness :
    ∃ j : Int, 0 ≤ j ∧ j < min (t500.waitMin * 2 ^ 0) t500.waitMax / 4 ∧
      RetryTransport.backoff t500 0 none 5 =
        some (min (t500.waitMin * 2 ^ 0) t500.waitMax + j) :=
  c7_backoff_formula.1 t500 0 5 none (by decide) (by decide) (by decide) (by decide)
    (by decide)

/-! ## Retry-loop lemmas -/

theorem resetBody_ok_of_no_error (attempt : Nat) {req : Request}
    (h : ∀ e, req.getBody ≠ some (Except.error e)) :
    ∃ req', resetBody attempt req = Except.ok req' ∧ req'.method = req.method ∧
      req'.ctx = req.ctx ∧ req'.getBody = req.getBody := by
  unfold resetBody
  split
  · split
    · rename_i e hgb
      exact absurd hgb (h e)
    · rename_i b hgb
      exact ⟨{ req with body := some b }, rfl, rfl, rfl, rfl⟩
    · exact ⟨req, rfl, rfl, rfl, rfl⟩
  · exact ⟨req, rfl, rfl, rfl, rfl⟩

theorem resetBody_fresh {attempt : Nat} {req : Request} {fresh : String}
    (ha : 0 < attempt) (hg : req.getBody = some (Except.ok fresh))
    (hb : req.body.isSome = true) :
    resetBody attempt req = Except.ok { req with body := some fresh } := by
  unfold resetBody
  rw [if_pos ⟨ha, hb, by simp [hg]⟩, hg]

theorem retryLoop_zero (t : RetryTransport) (base : Nat → RTResult) (rng : Nat → Nat)
    (attempt : Nat) (req : Request) :
    retryLoop t base rng attempt 0 req =
      match resetBody attempt req with
      | Except.error e => (some (Except.error e), [])
      | Except.ok req' => (some (base attempt), [req']) := by
  unfold retryLoop
  split
  · rfl
  · split
    · rfl
    · rfl

theorem retryLoop_succ (t : RetryTransport) (base : Nat → RTResult) (rng : Nat → Nat)
    (attempt rem : Nat) (req : Request) :
    retryLoop t base rng attempt (rem + 1) req =
      match resetBody attempt req with
      | Except.error e => (some (Except.error e), [])
      | Except.ok req' =>
        if attemptDone (base attempt) then (some (base attempt), [req'])
        else
          match t.backoff attempt (respOf (base attempt)) (rng attempt) with
          | none => (none, [req'])
          | some _ =>
            if req'.ctx.cancelled then (some (Except.error "context canceled"), [req'])
            else
              ((retryLoop t base rng (attempt + 1) rem req').1,
                req' :: (retryLoop t base rng (attempt + 1) rem req').2) := by
  conv_lhs => unfold retryLoop

theorem retryLoop_exhaust (t : RetryTransport) (base : Nat → RTResult) (rng : Nat → Nat)
    (hb : ∀ i, attemptDone (base i) = false) :
    ∀ (rem attempt : Nat) (req : Request),
      req.ctx.cancelled = false →
      (∀ e, req.getBody ≠ some (Except.error e)) →
      (∀ a, a < attempt + rem → 4 ≤ cappedExpWait t a) →
      (retryLoop t base rng attempt rem req).1 = some (base (attempt + rem)) ∧
        (retryLoop t base rng attempt rem req).2.length = rem + 1 := by
  intro rem
  induction rem with
  | zero =>
    intro attempt req hctx hgb h4
    obtain ⟨req', hr, -, -, -⟩ := resetBody_ok_of_no_error attempt hgb
    have e0 : retryLoop t base rng attempt 0 req = (some (base attempt), [req']) := by
      rw [retryLoop_zero, hr]
    rw [e0]
    simp
  | succ rem ih =>
    intro attempt req hctx hgb h4
    obtain ⟨req', hr, hm, hc, hg⟩ := resetBody_ok_of_no_error attempt hgb
    have hd : attemptDone (base attempt) = false := hb attempt
    obtain ⟨w, hw⟩ : ∃ w, t.backoff attempt (respOf (base attempt)) (rng attempt) = some w := by
      cases hB : t.backoff attempt (respOf (base attempt)) (rng attempt) with
      | none => exact absurd hB (backoff_isSome_of_wait _ _ (h4 attempt (by omega)))
      | some w => exact ⟨w, rfl⟩
    have hctx' : req'.ctx.cancelled = false := by rw [hc]; exact hctx
    have hgb' : ∀ e, req'.getBody ≠ some (Except.error e) := by rw [hg]; exact hgb
    have ih' := ih (attempt + 1) req' hctx' hgb' (fun a ha => h4 a (by omega))
    have hsum : attempt + 1 + rem = attempt + (rem + 1) := by omega
    rw [hsum] at ih'
    have e1 : retryLoop t base rng attempt (rem + 1) req =
        ((retryLoop t base rng (attempt + 1) rem req').1,
          req' :: (retryLoop t base rng (attempt + 1) rem req').2) := by
      rw [retryLoop_succ, hr]
      simp [hd, hw, hctx']
    rw [e1]
    exact ⟨ih'.1, by simp [ih'.2]⟩

theorem retryLoop_bodies_fresh (t : RetryTransport) (base : Nat → RTResult) (rng : Nat → Nat)
    (fresh : String) :
    ∀ (rem attempt : Nat) (req : Request), 0 < attempt →
      req.getBody = some (Except.ok fresh) → req.body.isSome = true →
      ∀ q ∈ (retryLoop t base rng attempt rem req).2, q.body = some fresh := by
  intro rem
  induction rem with
  | zero =>
    intro attempt req ha hg hbody q hq
    have hr := resetBody_fresh ha hg hbody
    have e0 : retryLoop t base rng attempt 0 req =
        (some (base attempt), [{ req with body := some fresh }]) := by
      rw [retryLoop_zero, hr]
    rw [e0] at hq
    simp at hq
    rw [hq]
  | succ rem ih =>
    intro attempt req ha hg hbody q hq
    have hr := resetBody_fresh ha hg hbody
    by_cases hd : attemptDone (base attempt) = true
    · have e1 : retryLoop t base rng attempt (rem + 1) req =
          (some (base attempt), [{ req with body := some fresh }]) := by
        rw [retryLoop_succ, hr]
        simp [hd]
      rw [e1] at hq
      simp at hq
      rw [hq]
    · cases hB : t.backoff attempt (respOf (base attempt)) (rng attempt) with
      | none =>
        have e1 : retryLoop t base rng attempt (rem + 1) req =
            (none, [{ req with body := some fresh }]) := by
          rw [retryLoop_succ, hr]
          simp [hd, hB]
        rw [e1] at hq
        simp at hq
        rw [hq]
      | some w =>
        by_cases hcz : req.ctx.cancelled = true
        · have e1 : retryLoop t base rng attempt (rem + 1) req =
              (some (Except.error "context canceled"), [{ req with body := some fresh }]) := by
            rw [retryLoop_succ, hr]
            simp [hd, hB, hcz]
          rw [e1] at hq
          simp at hq
          rw [hq]
        · have e1 : retryLoop t base rng attempt (rem + 1) req =
              ((retryLoop t base rng (attempt + 1) rem { req with body := some fresh }).1,
                { req with body := some fresh } ::
                  (retryLoop t base rng (attempt + 1) rem { req with body := some fresh }).2) := by
            rw [retryLoop_succ, hr]
            simp [hd, hB, hcz]
          rw [e1] at hq
          rcases List.mem_cons.mp hq with h | h
          · rw [h]
          · exact ih (attempt + 1) { req with body := some fresh } (by omega)
              (by simpa using hg) (by simp) q h

theorem retryLoop_tail_fresh (t : RetryTransport) (base : Nat → RTResult) (rng : Nat → Nat)
    (req : Request) (fresh : String) (rem : Nat)
    (hg : req.getBody = some (Except.ok fresh)) (hbody : req.body.isSome = true) :
    ∀ q ∈ (retryLoop t base rng 0 rem req).2.tail, q.body = some fresh := by
  cases rem with
  | zero =>
    have e0 : retryLoop t base rng 0 0 req = (some (base 0), [req]) := by
      rw [retryLoop_zero, show resetBody 0 req = Except.ok req from rfl]
    rw [e0]
    intro q hq
    simp at hq
  | succ rem =>
    by_cases hd : attemptDone (base 0) = true
    · have e1 : retryLoop t base rng 0 (rem + 1) req = (some (base 0), [req]) := by
        rw [retryLoop_succ, show resetBody 0 req = Except.ok req from rfl]
        simp [hd]
      rw [e1]
      intro q hq
      simp at hq
    · cases hB : t.backoff 0 (respOf (base 0)) (rng 0) with
      | none =>
        have e1 : retryLoop t base rng 0 (rem + 1) req = (none, [req]) := by
          rw [retryLoop_succ, show resetBody 0 req = Except.ok req from rfl]
          simp [hd, hB]
        rw [e1]
        intro q hq
        simp at hq
      | some w =>
        by_cases hcz : req.ctx.cancelled = true
        · have e1 : retryLoop t base rng 0 (rem + 1) req =
              (some (Except.error "context canceled"), [req]) := by
            rw [retryLoop_succ, show resetBody 0 req = Except.ok req from rfl]
            simp [hd, hB, hcz]
          rw [e1]
          intro q hq
          simp at hq
        · have e1 : retryLoop t base rng 0 (rem + 1) req =
              ((retryLoop t base rng 1 rem req).1,
                req :: (retryLoop t base rng 1 rem req).2) := by
            rw [retryLoop_succ, show resetBody 0 req = Except.ok req from rfl]
            simp [hd, hB, hcz]
          rw [e1]
          intro q hq
          simp only [List.tail_cons] at hq
          exact retryLoop_bodies_fresh t base rng fresh rem 1 req (by omega) hg hbody q hq

/-- C6: a request is retry-eligible exactly when its method is one of GET,
PUT, DELETE, HEAD, OPTIONS or its context carries the idempotent-override
marker set to `true` (first conjunct); every request that is not
retry-eligible is forwarded to the underlying transport exactly once and its
outcome returned unchanged, whatever that outcome and whatever the
configured retries (second conjunct). -/
theorem c6_idempotency_rule (t : RetryTransport) (base : Nat → RTResult) (rng : Nat → Nat)
    (req : Request) :
    (RetryTransport.isIdempotent req = true ↔
      (req.method = "GET" ∨ req.method = "PUT" ∨ req.method = "DELETE" ∨
        req.method = "HEAD" ∨ req.method = "OPTIONS" ∨
        req.ctx.idempotentMarker = some true)) ∧
    (RetryTransport.isIdempotent req = false →
      t.roundTrip base rng req = (some (base 0), [req])) := by
  constructor
  · constructor
    · intro h
      unfold RetryTransport.isIdempotent at h
      split at h
      · rename_i hc
        simp only [Bool.or_eq_true, decide_eq_true_eq] at hc
        tauto
      · unfold isIdempotentCtx at h
        simp only [beq_iff_eq] at h
        tauto
    · intro h
      unfold RetryTransport.isIdempotent
      split
      · rfl
      · rename_i hc
        simp only [Bool.or_eq_true, decide_eq_true_eq, not_or] at hc
        unfold isIdempotentCtx
        simp only [beq_iff_eq]
        tauto
  · intro h
    unfold RetryTransport.roundTrip
    by_cases hmr : t.maxRetries = 0
    · rw [if_pos hmr]
    · rw [if_neg hmr, if_pos (by simp [h])]

/-- Witness for `c6_idempotency_rule`: an unmarked POST is forwarded exactly
once even though every attempt fails with 500. -/
theorem c6_idempotency_rule_witness :
    RetryTransport.roundTrip t500 base500 (fun _ => 0) { method := "POST" } =
      (some (base500 0), [{ method := "POST" }]) :=
  (c6_idempotency_rule t500 base500 (fun _ => 0) { method := "POST" }).2 (by decide)

/-- C5: for a retry-eligible request with configured `maxRetries = k`
(`k` in 1..5), a replayable (or absent) body, an uncancelled context, and a
base transport whose every attempt fails retryably, the retry layer forwards
exactly `k+1` requests and returns the outcome of the last attempt as-is
(`base k` itself, not a wrapped error).  The wait bounds are kept positive
and small enough that the backoff arithmetic neither panics nor
overflows. -/
theorem c5_retry_exhaustion (k wmin wmax : Int) (base : Nat → RTResult) (rng : Nat → Nat)
    (req : Request)
    (hk1 : 1 ≤ k) (hk5 : k ≤ 5)
    (hwmin : 4 ≤ wmin) (hminmax : wmin ≤ wmax) (hov : wmin * 32 < 2 ^ 63)
    (hb : ∀ i, attemptDone (base i) = false)
    (hid : RetryTransport.isIdempotent req = true)
    (hctx : req.ctx.cancelled = false)
    (hgb : ∀ e, req.getBody ≠ some (Except.error e)) :
    ((newRetryTransport k wmin wmax).roundTrip base rng req).1 = some (base k.toNat) ∧
      ((newRetryTransport k wmin wmax).roundTrip base rng req).2.length = k.toNat + 1 := by
  have ht : newRetryTransport k wmin wmax =
      { maxRetries := k.toNat, waitMin := wmin, waitMax := wmax } := by
    simp only [newRetryTransport]
    rw [if_neg (show ¬ k < 0 by omega)]
    rw [if_neg (show ¬ 5 < k by omega)]
    rw [if_neg (show ¬ wmin ≤ 0 by omega)]
    rw [if_neg (show ¬ wmax ≤ 0 by omega)]
  rw [ht]
  have h4 : ∀ a, a < 0 + k.toNat →
      4 ≤ cappedExpWait { maxRetries := k.toNat, waitMin := wmin, waitMax := wmax } a := by
    intro a ha
    have ha4 : a ≤ 4 := by omega
    have hp : (0 : Int) < 2 ^ a := by positivity
    have hple : (2 : Int) ^ a ≤ 2 ^ 4 := pow_le_pow_right₀ (by norm_num) ha4
    have hov' : wmin * 2 ^ a < 2 ^ 63 := by nlinarith
    have hx : wmin ≤ wmin * 2 ^ a := by nlinarith
    rw [cappedExpWait_eq (show (0 : Int) < wmin by omega) hov']
    show (4 : Int) ≤ min (wmin * 2 ^ a) wmax
    exact le_min (by omega) (by omega)
  have key := retryLoop_exhaust { maxRetries := k.toNat, waitMin := wmin, waitMax := wmax }
    base rng hb k.toNat 0 req hctx hgb h4
  rw [Nat.zero_add] at key
  have hroundtrip :
      RetryTransport.roundTrip { maxRetries := k.toNat, waitMin := wmin, waitMax := wmax }
        base rng req =
        retryLoop { maxRetries := k.toNat, waitMin := wmin, waitMax := wmax }
          base rng 0 k.toNat req := by
    unfold RetryTransport.roundTrip
    rw [if_neg (show ¬ k.toNat = 0 by omega), if_neg (by simp [hid])]
  rw [hroundtrip]
  exact key

/-- Witness for `c5_retry_exhaustion`: one retry (k = 1), a GET whose every
attempt returns 500, default wait bounds: 2 forwarded requests and the last
500 response returned unchanged. -/
theorem c5_retry_exhaustion_witness :
    ((newRetryTransport 1 500000000 30000000000).roundTrip base500 (fun _ => 0)
        { method := "GET" }).1 = some (base500 (1 : Int).toNat) ∧
      ((newRetryTransport 1 500000000 30000000000).roundTrip base500 (fun _ => 0)
        { method := "GET" }).2.length = (1 : Int).toNat + 1 :=
  c5_retry_exhaustion 1 500000000 30000000000 base500 (fun _ => 0) { method := "GET" }
    (by decide) (by decide) (by decide) (by decide) (by decide)
    (fun _ => rfl) (by decide) (by decide) (fun _ h => Option.noConfusion h)

/-- C3 counterexample: a GET whose body is present but carries no `GetBody`
replay function (`GetBody = nil`) is NOT failed fast: with `maxRetries = 1`
and every attempt failing with 500, the retry layer forwards the request
twice — the second time with the very same already-consumed body — and
returns the last 500 response with no error. -/
theorem c3_counterexample :
    (tOneRetry.roundTrip base500 (fun _ => 0) reqStale).2 = [reqStale, reqStale] ∧
      (tOneRetry.roundTrip base500 (fun _ => 0) reqStale).1 = some (Except.ok resp500) ∧
      reqStale.body = some "consumed" ∧ reqStale.getBody = none := by
  refine ⟨by decide, by decide, rfl, rfl⟩

/-- C3 amended: before each retry (not the first attempt), when the request
has both a body and a `GetBody` replay function the body is reset to the
fresh copy `GetBody` returns, and if `GetBody` fails the retry layer fails
fast with that error, forwarding nothing further (first conjunct: exactly
one request was sent, and `GetBody`'s error is returned); every request
actually forwarded on a retry carries the fresh copy as its body (second
conjunct); but a request whose body lacks a `GetBody` function is re-sent
as-is with the consumed body instead of failing fast (the counterexample). -/
theorem c3_body_replay :
    (∀ (e b0 : String) (base : Nat → RTResult) (rng : Nat → Nat),
      attemptDone (base 0) = false →
      tOneRetry.roundTrip base rng (reqErrBody e b0) =
        (some (Except.error e), [reqErrBody e b0])) ∧
    (∀ (t : RetryTransport) (base : Nat → RTResult) (rng : Nat → Nat) (req : Request)
        (fresh : String),
      req.getBody = some (Except.ok fresh) → req.body.isSome = true →
      ∀ q ∈ (t.roundTrip base rng req).2.tail, q.body = some fresh) := by
  constructor
  · intro e b0 base rng hd
    obtain ⟨w, hw⟩ : ∃ w, tOneRetry.backoff 0 (respOf (base 0)) (rng 0) = some w := by
      cases hB : RetryTransport.backoff tOneRetry 0 (respOf (base 0)) (rng 0) with
      | none => exact absurd hB (backoff_isSome_of_wait _ _ (by decide))
      | some w => exact ⟨w, rfl⟩
    have e1 : retryLoop tOneRetry base rng 0 1 (reqErrBody e b0) =
        ((retryLoop tOneRetry base rng 1 0 (reqErrBody e b0)).1,
          reqErrBody e b0 :: (retryLoop tOneRetry base rng 1 0 (reqErrBody e b0)).2) := by
      rw [retryLoop_succ, show resetBody 0 (reqErrBody e b0) = Except.ok (reqErrBody e b0)
        from rfl]
      simp [hd, hw, reqErrBody]
    have e2 : retryLoop tOneRetry base rng 1 0 (reqErrBody e b0) =
        (some (Except.error e), []) := by
      rw [retryLoop_zero, show resetBody 1 (reqErrBody e b0) = Except.error e from rfl]
    show retryLoop tOneRetry base rng 0 1 (reqErrBody e b0) =
      (some (Except.error e), [reqErrBody e b0])
    rw [e1, e2]
  · intro t base rng req fresh hg hbody
    unfold RetryTransport.roundTrip
    split
    · intro q hq
      simp at hq
    · split
      · intro q hq
        simp at hq
      · exact retryLoop_tail_fresh t base rng req fresh t.maxRetries hg hbody

/-- Witness for `c3_body_replay`: with a failing `GetBody`, exactly one
request goes out and its error is returned. -/
theorem c3_body_replay_witness :
    tOneRetry.roundTrip base500 (fun _ => 0) (reqErrBody "no replay" "b") =
      (some (Except.error "no replay"), [reqErrBody "no replay" "b"]) :=
  c3_body_replay.1 "no replay" "b" base500 (fun _ => 0) rfl

/-! ## Concurrency-limiter lemmas -/

theorem countP_set_eq {α : Type} (p : α → Bool) (l : List α) (i : Nat) (a b : α)
    (h : l.get? i = some a) :
    (l.set i b).countP p + (if p a then 1 else 0) = l.countP p + (if p b then 1 else 0) := by
  induction l generalizing i with
  | nil => simp at h
  | cons x xs ih =>
    cases i with
    | zero =>
      simp only [List.get?_cons_zero] at h
      injection h with h
      subst h
      simp only [List.set_cons_zero, List.countP_cons]
      omega
    | succ n =>
      simp only [List.get?_cons_succ] at h
      have hix := ih n h
      simp only [List.set_cons_succ, List.countP_cons]
      omega

theorem inflightCount_replicate (k : Nat) :
    inflightCount (List.replicate k CallPhase.waiting) = 0 := by
  induction k with
  | zero => rfl
  | succ k ih =>
    simp only [List.replicate_succ, inflightCount, List.countP_cons] at *
    rw [ih, if_neg (show ¬ isInflight CallPhase.waiting = true by decide)]

theorem limReach_invariant {n : Nat} {s : Nat × List CallPhase} (h : LimReach n s) :
    s.1 = inflightCount s.2 ∧ s.1 ≤ n := by
  induction h with
  | init k => exact ⟨(inflightCount_replicate k).symm, Nat.zero_le n⟩
  | step _ hs ih =>
    obtain ⟨ih1, ih2⟩ := ih
    cases hs with
    | acquire cur ph i hi hn =>
      have ih1' : cur = List.countP isInflight ph := ih1
      have hcount := countP_set_eq isInflight ph i CallPhase.waiting CallPhase.inflight hi
      rw [if_neg (show ¬ isInflight CallPhase.waiting = true by decide),
        if_pos (show isInflight CallPhase.inflight = true by decide)] at hcount
      refine ⟨show cur + 1 = List.countP isInflight (ph.set i CallPhase.inflight) by omega,
        hn⟩
    | cancelWait cur ph i hi =>
      have ih1' : cur = List.countP isInflight ph := ih1
      have hcount := countP_set_eq isInflight ph i CallPhase.waiting CallPhase.cancelled hi
      rw [if_neg (show ¬ isInflight CallPhase.waiting = true by decide),
        if_neg (show ¬ isInflight CallPhase.cancelled = true by decide)] at hcount
      exact ⟨show cur = List.countP isInflight (ph.set i CallPhase.cancelled) by omega, ih2⟩
    | finish cur ph i hi =>
      have ih1' : cur = List.countP isInflight ph := ih1
      have ih2' : cur ≤ n := ih2
      have hcount := countP_set_eq isInflight ph i CallPhase.inflight CallPhase.done hi
      rw [if_pos (show isInflight CallPhase.inflight = true by decide),
        if_neg (show ¬ isInflight CallPhase.done = true by decide)] at hcount
      exact ⟨show cur - 1 = List.countP isInflight (ph.set i CallPhase.done) by omega,
        by omega⟩

/-- C9: in every state reachable from a burst of any number of concurrent
callers through the limiter's acquire/cancel/release transitions with
configured capacity `N` in [1,10], at most `N` tasks are in flight at the
underlying transport, and the semaphore's acquired count equals the number
of in-flight tasks (so a permit is held exactly while a forwarded call runs:
cancellation of a waiter consumes none, and every completed call has
released its permit). -/
theorem c9_concurrency_cap (n : Nat) (s : Nat × List CallPhase)
    (h1 : 1 ≤ n) (h10 : n ≤ 10) (h : LimReach n s) :
    inflightCount s.2 ≤ n ∧ s.1 = inflightCount s.2 := by
  obtain ⟨e, le⟩ := limReach_invariant h
  exact ⟨by omega, e⟩

/-- Witness for `c9_concurrency_cap`: two callers, capacity 1, initial
state. -/
theorem c9_concurrency_cap_witness :
    inflightCount (List.replicate 2 CallPhase.waiting) ≤ 1 ∧
      (0 : Nat) = inflightCount (List.replicate 2 CallPhase.waiting) :=
  c9_concurrency_cap 1 (0, List.replicate 2 CallPhase.waiting)
    (by decide) (by decide) (LimReach.init 2)

/-! ## Error-classifier lemmas -/

theorem newAPIErrorWithBody_traceID (resp : Response) (raw : String) (parsed : Option GoJson) :
    (newAPIErrorWithBody resp raw parsed).traceID = headerGet resp.headers "x-trace-id" := by
  unfold newAPIErrorWithBody
  repeat' split
  all_goals rfl

/-- C8 counterexample: the body `{"message":5,"error":"x"}` is a JSON object
whose `error` field is the non-empty string `"x"` (and whose `message` field
is not a non-empty string), yet the constructed APIError's `Message` is
empty — `json.Unmarshal` into the `{message, error string}` shape fails on
the numeric `message` field, so the code extracts nothing, where the claim's
fallback chain demands `Message = "x"`. -/
theorem c8_counterexample :
    (newAPIErrorWithBody resp500 c8Raw (some c8Body)).message = "" ∧
      c8Body = GoJson.jobj [("message", GoJson.jnum 5), ("error", GoJson.jstr "x")] ∧
      0 < c8Raw.length ∧ ("x" : String) ≠ "" := by
  refine ⟨by decide, rfl, by decide, by decide⟩

/-- C8 amended: `Message` follows the claimed fallback chain provided the
decode of the `{message, error}` projection succeeds — the body is a JSON
object (or null) whose `message`/`error` fields, where present, are strings
or null: then `Message` is the `message` field if non-empty, else the
`error` field if non-empty, else empty (third conjunct); any body on which
that decode fails — malformed JSON, a non-object top level, or a
wrongly-typed `message`/`error` field — yields an empty `Message` rather
than a construction failure (fourth conjunct; the constructor is total, so
error construction itself never fails); and `TraceID` always equals the
`x-trace-id` response header, the empty string when no such header is
present (first and second conjuncts). -/
theorem c8_error_extraction (resp : Response) (raw : String) (parsed : Option GoJson) :
    (newAPIErrorWithBody resp raw parsed).traceID = headerGet resp.headers "x-trace-id" ∧
    ((∀ p ∈ resp.headers, eqFoldAscii p.1 "x-trace-id" = false) →
      (newAPIErrorWithBody resp raw parsed).traceID = "") ∧
    (∀ v m e, parsed = some v → decodeErrResp v = some (m, e) → 0 < raw.length →
      (newAPIErrorWithBody resp raw parsed).message =
        (if m ≠ "" then m else if e ≠ "" then e else "")) ∧
    ((parsed = none ∨ ∃ v, parsed = some v ∧ decodeErrResp v = none) →
      (newAPIErrorWithBody resp raw parsed).message = "") := by
  refine ⟨newAPIErrorWithBody_traceID resp raw parsed, ?_, ?_, ?_⟩
  · intro hno
    rw [newAPIErrorWithBody_traceID]
    unfold headerGet
    rw [List.find?_eq_none.mpr (fun x hx => by simp [hno x hx])]
  · intro v m e hv hd hlen
    subst hv
    unfold newAPIErrorWithBody
    rw [if_pos hlen]
    simp only [hd]
    by_cases hm : m = ""
    · by_cases he : e = ""
      · simp [hm, he]
      · simp [hm, he]
    · simp [hm]
  · intro h
    rcases h with h | ⟨v, hv, hd⟩
    · subst h
      unfold newAPIErrorWithBody
      split
      · rfl
      · rfl
    · subst hv
      unfold newAPIErrorWithBody
      split
      · simp [hd]
      · rfl

/-- Witness for `c8_error_extraction`: a body whose decode yields the
message `"boom"` gives `Message = "boom"`. -/
theorem c8_error_extraction_witness :
    (newAPIErrorWithBody resp500 "x"
        (some (GoJson.jobj [("message", GoJson.jstr "boom")]))).message =
      (if ("boom" : String) ≠ "" then "boom" else if ("" : String) ≠ "" then "" else "") :=
  (c8_error_extraction resp500 "x" (some (GoJson.jobj [("message", GoJson.jstr "boom")]))).2.2.1
    (GoJson.jobj [("message", GoJson.jstr "boom")]) "boom" "" rfl (by decide) (by decide)

end Dash0

